import Mathlib

/-!
Verification of the HTTP-to-SQL mapping layer of a small CRUD service
(`main.go`): a `Book` record (id, title, author, isbn) exposed through five
route handlers (list, get-by-id, create, update, delete).

The Go handlers are shallowly embedded as pure Lean functions.  Interactions
with the outside world are passed in as explicit arguments:

* the result of `json.NewDecoder(r.Body).Decode(&book)` becomes a
  `DecodeOutcome` (on error, Go leaves the partially-decoded value in the
  target variable, so the error constructor carries that `Book`);
* the result of `db.Exec` / `db.Query` / `row.Scan` becomes an
  `Except String _` value (`database/sql` surfaces errors as `error` values
  whose text the handlers write into the response);
* the `http.ResponseWriter` becomes a `Response` state threaded through the
  handler, with `net/http` semantics: the first `WriteHeader` call fixes the
  status, later calls are ignored, and a `Write` without a prior
  `WriteHeader` implicitly writes status 200.  `http.Error(w, msg, code)`
  is `WriteHeader code` followed by `Fprintln`, i.e. `msg ++ "\n"`.

Each handler also returns the list of SQL statements it executed
(`DbCall`), so that "no statement was executed" and "the insert still ran"
are statable.  The relational effect of the `UPDATE`/`DELETE` statements on
a table (a `List Book`) is modelled by `updateTable`/`deleteTable`,
mirroring standard SQL semantics: the `SET` list touches only
title/author/isbn, the `WHERE` clause selects rows by id.
-/

/-- The `Book` struct of `main.go`: `ID int`, `Title`, `Author`,
`ISBN string`, with JSON keys `id`, `title`, `author`, `isbn`. -/
structure Book where
  ID : Int
  Title : String
  Author : String
  ISBN : String
  deriving DecidableEq, Repr

/-- The Go zero value of `Book`, the state of `var book Book` before
`Decode` runs. -/
def Book.zero : Book := ⟨0, "", "", ""⟩

/-- Model of `http.ResponseWriter`: the status fixed by the first
`WriteHeader` call (none while unset) and the accumulated body bytes. -/
structure Response where
  status : Option Nat
  body : String
  deriving DecidableEq, Repr

/-- The response writer before the handler has touched it. -/
def Response.empty : Response := ⟨none, ""⟩

/-- `w.WriteHeader(code)`: records the status; `net/http` ignores a second
call (logging "superfluous response.WriteHeader call"). -/
def Response.writeHeader (w : Response) (code : Nat) : Response :=
  match w.status with
  | some _ => w
  | none => { w with status := some code }

/-- `w.Write(bytes)`: appends to the body; if no status has been written
yet, `net/http` first performs an implicit `WriteHeader(200)`. -/
def Response.write (w : Response) (s : String) : Response :=
  { status := some (w.status.getD 200), body := w.body ++ s }

/-- `http.Error(w, msg, code)`: `WriteHeader code` then `Fprintln(w, msg)`,
which appends the message and a trailing newline. -/
def httpError (w : Response) (msg : String) (code : Nat) : Response :=
  (w.writeHeader code).write (msg ++ "\n")

/-- Outcome of `json.NewDecoder(r.Body).Decode(&book)`.  On failure Go
returns an error and leaves in `book` whatever the partial decode produced
(the zero value if nothing was decoded), carried by the `error`
constructor. -/
inductive DecodeOutcome where
  | ok (b : Book)
  | error (msg : String) (b : Book)
  deriving DecidableEq, Repr

/-- The SQL statements `main.go` can issue, with their arguments. -/
inductive DbCall where
  | queryBooks
  | queryBook (id : String)
  | insertBook (title author isbn : String)
  | updateBookRow (title author isbn : String) (id : String)
  | deleteBookRow (id : String)
  deriving DecidableEq, Repr

/-- The error text of `sql.ErrNoRows`, which `row.Scan` returns when the
single-row query matched nothing. -/
def sqlErrNoRows : String := "sql: no rows in result set"

/-- One hex digit, lowercase, as used by `encoding/json` escapes. -/
def hexDigit (n : Nat) : Char :=
  if n < 10 then Char.ofNat (48 + n) else Char.ofNat (87 + n)

/-- Escaping of one character by `encoding/json` with the default
HTML-escaping encoder: `"`, `\\`, `\n`, `\r`, `\t` get two-character
escapes; `<`, `>`, `&`, U+2028, U+2029 and the remaining control
characters get `\uXXXX` escapes; everything else is copied. -/
def escapeJsonChar (c : Char) : String :=
  if c = '"' then "\\\""
  else if c = '\\' then "\\\\"
  else if c = '\n' then "\\n"
  else if c = '\r' then "\\r"
  else if c = '\t' then "\\t"
  else if c = '<' then "\\u003c"
  else if c = '>' then "\\u003e"
  else if c = '&' then "\\u0026"
  else if c.toNat < 32 then
    "\\u00" ++ String.mk [hexDigit (c.toNat / 16), hexDigit (c.toNat % 16)]
  else if c.toNat = 0x2028 then "\\u2028"
  else if c.toNat = 0x2029 then "\\u2029"
  else String.singleton c

/-- A Go string rendered as a JSON string literal. -/
def quoteJson (s : String) : String :=
  "\"" ++ String.join (s.data.map escapeJsonChar) ++ "\""

/-- `encoding/json` marshalling of a `Book`: an object with the struct's
fields in declaration order under their JSON tags. -/
def encodeBook (b : Book) : String :=
  "\x7b\"id\":" ++ toString b.ID
    ++ ",\"title\":" ++ quoteJson b.Title
    ++ ",\"author\":" ++ quoteJson b.Author
    ++ ",\"isbn\":" ++ quoteJson b.ISBN ++ "\x7d"

/-- A Go slice of books, which is either nil (`none`) or holds elements.
`var books []Book` starts as nil. -/
def GoSlice := Option (List Book)

/-- Go `append` on a possibly-nil slice: appending to nil allocates. -/
def goAppend (s : GoSlice) (b : Book) : GoSlice :=
  match s with
  | none => some [b]
  | some l => some (l ++ [b])

/-- `encoding/json` marshalling of a `[]Book` value: a nil slice encodes
as `null`, a non-nil slice as an array. -/
def encodeBooks : GoSlice → String
  | none => "null"
  | some l => "[" ++ String.intercalate "," (l.map encodeBook) ++ "]"

/-- The `for rows.Next()` loop of `getBooks`: scan each row into a `Book`
and append it to the slice; stop at the first scan error. -/
def booksLoop (acc : GoSlice) : List (Except String Book) → Except String GoSlice
  | [] => .ok acc
  | .error e :: _ => .error e
  | .ok b :: rest => booksLoop (goAppend acc b) rest

/-- `getBooks` (GET /books).  `q` is the outcome of
`db.Query("SELECT id, title, author, isbn FROM books")`: either a query
error or the list of rows, each row being the outcome of scanning it. -/
def getBooks (q : Except String (List (Except String Book))) :
    Response × List DbCall :=
  match q with
  | .error e => (httpError Response.empty e 500, [DbCall.queryBooks])
  | .ok rows =>
    match booksLoop none rows with
    | .error e => (httpError Response.empty e 500, [DbCall.queryBooks])
    | .ok books =>
      (Response.empty.write (encodeBooks books ++ "\n"), [DbCall.queryBooks])

/-- `getBook` (GET /books/{id}).  `id` is the raw path parameter;
`scanRes` is the outcome of `row.Scan` on the single-row query (on an
empty result it is `.error sqlErrNoRows`). -/
def getBook (id : String) (scanRes : Except String Book) :
    Response × List DbCall :=
  match scanRes with
  | .error e => (httpError Response.empty e 500, [DbCall.queryBook id])
  | .ok b =>
    (Response.empty.write (encodeBook b ++ "\n"), [DbCall.queryBook id])

/-- `createBook` (POST /books).  On decode failure the handler calls
`http.Error(w, _, 400)` but does not return, so it falls through to the
`INSERT` with the partially-decoded book. -/
def createBook (d : DecodeOutcome) (execRes : Except String Unit) :
    Response × List DbCall :=
  let wb : Response × Book :=
    match d with
    | .ok b => (Response.empty, b)
    | .error e b0 => (httpError Response.empty e 400, b0)
  let calls := [DbCall.insertBook wb.2.Title wb.2.Author wb.2.ISBN]
  match execRes with
  | .error e => (httpError wb.1 e 500, calls)
  | .ok _ => ((wb.1.writeHeader 201).write "Book created successfully", calls)

/-- `updateBook` (PUT /books/{id}).  On decode failure it returns
immediately with a 400; on success it runs the `UPDATE` and echoes the
decoded input book back as JSON. -/
def updateBook (id : String) (d : DecodeOutcome) (execRes : Except String Unit) :
    Response × List DbCall :=
  match d with
  | .error e _ => (httpError Response.empty e 400, [])
  | .ok b =>
    match execRes with
    | .error e =>
      (httpError Response.empty e 500,
       [DbCall.updateBookRow b.Title b.Author b.ISBN id])
    | .ok _ =>
      (Response.empty.write (encodeBook b ++ "\n"),
       [DbCall.updateBookRow b.Title b.Author b.ISBN id])

/-- `deleteBook` (DELETE /books/{id}). -/
def deleteBook (id : String) (execRes : Except String Unit) :
    Response × List DbCall :=
  match execRes with
  | .error e => (httpError Response.empty e 500, [DbCall.deleteBookRow id])
  | .ok _ =>
    ((Response.empty.writeHeader 200).write "Book deleted successfully",
     [DbCall.deleteBookRow id])

/-- Relational semantics of the statement
`UPDATE books SET title = $1, author = $2, isbn = $3 WHERE id = $4` on a
table of books: every row whose id matches gets the three new column
values, every other row is untouched (the database engine itself is
outside `main.go`; this mirrors standard SQL `UPDATE` semantics). -/
def updateTable (n : Int) (b : Book) : List Book → List Book
  | [] => []
  | r :: rest =>
    (if r.ID = n then { r with Title := b.Title, Author := b.Author, ISBN := b.ISBN }
     else r) :: updateTable n b rest

/-- Relational semantics of `DELETE FROM books WHERE id = $1`: keep the
rows whose id does not match. -/
def deleteTable (n : Int) (t : List Book) : List Book :=
  t.filter (fun r => r.ID != n)

/-- One JSON object member relevant to decoding a `Book`: `encoding/json`
assigns each present key to the matching struct field. -/
inductive BookField where
  | id (v : Int)
  | title (v : String)
  | author (v : String)
  | isbn (v : String)
  deriving DecidableEq, Repr

/-- Assignment of one decoded JSON member to the `Book` variable. -/
def Book.setField (b : Book) : BookField → Book
  | .id v => { b with ID := v }
  | .title v => { b with Title := v }
  | .author v => { b with Author := v }
  | .isbn v => { b with ISBN := v }

/-- `Decode` of a well-formed JSON object into `var book Book`: the target
starts at the zero value and each present member overwrites its field, so
an absent member leaves the zero value (id 0, empty strings). -/
def decodeBook (fs : List BookField) : Book :=
  fs.foldl Book.setField Book.zero

theorem booksLoop_map_ok_some (l : List Book) (rs : List Book) :
    booksLoop (some l) (rs.map Except.ok) = .ok (some (l ++ rs)) := by
  induction rs generalizing l with
  | nil => simp [booksLoop]
  | cons r rest ih => simp [booksLoop, goAppend, ih]

theorem booksLoop_map_ok (rs : List Book) :
    booksLoop none (rs.map Except.ok)
      = .ok (match rs with | [] => none | r :: rest => some (r :: rest)) := by
  cases rs with
  | nil => rfl
  | cons r rest =>
    show booksLoop (goAppend none r) (rest.map Except.ok) = _
    simp [goAppend, booksLoop_map_ok_some]

theorem booksLoop_error (e : String) (post : List (Except String Book))
    (pre : List Book) (acc : GoSlice) :
    booksLoop acc (pre.map Except.ok ++ Except.error e :: post) = .error e := by
  induction pre generalizing acc with
  | nil => rfl
  | cons r rest ih => simpa [booksLoop] using ih (goAppend acc r)

/-- C1: on POST /books, when JSON decoding fails the handler writes an HTTP
400 with the error text but does not return, so the INSERT is still
executed with the partially-decoded (possibly zero-valued) book: for every
decode error `e` with left-over value `b0`, the response status is 400,
the body starts with the error text, and the call trace contains exactly
the INSERT of `b0`'s fields, whatever the INSERT's outcome `r`. -/
theorem createBook_decode_error_still_inserts (e : String) (b0 : Book) :
    (createBook (.error e b0) (.ok ())).1
      = { status := some 400, body := (e ++ "\n") ++ "Book created successfully" } ∧
    (∀ r, (createBook (.error e b0) r).2
      = [DbCall.insertBook b0.Title b0.Author b0.ISBN]) := by
  refine ⟨rfl, fun r => ?_⟩
  cases r <;> rfl

/-- C2 counterexample: after a successful query of an empty table,
`getBooks` encodes the nil slice `var books []Book`, which
`encoding/json` marshals as `null`, not as the empty array `[]` the claim
requires. -/
theorem getBooks_empty_body_is_null :
    (getBooks (.ok [])).1.body = "null\n" ∧
    (getBooks (.ok [])).1.body ≠ "[]\n" := by
  exact ⟨rfl, by decide⟩

/-- C2 amended: on a successful query whose rows all scan successfully,
the status is 200 and the body is `null` when there are no rows (the nil
slice marshals to `null`) and otherwise a JSON array with one `Book`
object per scanned row, newline-terminated. -/
theorem getBooks_success_body (rs : List Book) :
    (getBooks (.ok (rs.map Except.ok))).1
      = { status := some 200,
          body := (match rs with
            | [] => "null"
            | _ :: _ => "[" ++ String.intercalate "," (rs.map encodeBook) ++ "]")
              ++ "\n" } ∧
    (getBooks (.ok (rs.map Except.ok))).2 = [DbCall.queryBooks] := by
  cases rs with
  | nil => exact ⟨rfl, rfl⟩
  | cons r rest =>
    refine ⟨?_, ?_⟩ <;> (simp only [getBooks, booksLoop_map_ok]; try rfl)

/-- C3: on GET /books/{id}, every scan error — including the
`sql.ErrNoRows` returned when no row matches — produces the same HTTP 500
with the raw error text and a newline; only a scanned row produces a 200
with the book as a JSON object. -/
theorem getBook_error_uniform :
    (∀ id e, (getBook id (.error e)).1 = { status := some 500, body := e ++ "\n" }) ∧
    (∀ id, (getBook id (.error sqlErrNoRows)).1
      = { status := some 500, body := sqlErrNoRows ++ "\n" }) ∧
    (∀ id b, (getBook id (.ok b)).1
      = { status := some 200, body := encodeBook b ++ "\n" }) :=
  ⟨fun _ _ => rfl, fun _ => rfl, fun _ _ => rfl⟩

/-- C4: on PUT /books/{id} with a successfully decoded body `b` and a
successful UPDATE, the response is HTTP 200 whose body is exactly the
decoded input book `b` re-encoded as JSON — not the persisted row — and
this holds for every path id, matching rows or not (the handler never
inspects the affected-row count). -/
theorem updateBook_roundtrip (id : String) (b : Book) :
    (updateBook id (.ok b) (.ok ())).1
      = { status := some 200, body := encodeBook b ++ "\n" } ∧
    (updateBook id (.ok b) (.ok ())).2
      = [DbCall.updateBookRow b.Title b.Author b.ISBN id] :=
  ⟨rfl, rfl⟩

/-- C5: on DELETE /books/{id} with a successful DELETE execution the
response is HTTP 200 with the plain confirmation string, for every id —
no affected-row check — and deleting the same id from a table twice
leaves the same table as deleting it once, so repeating the DELETE for an
already-deleted id yields the same success. -/
theorem deleteBook_idempotent_success (id : String) (n : Int) (t : List Book) :
    (deleteBook id (.ok ())).1
      = { status := some 200, body := "Book deleted successfully" } ∧
    (deleteBook id (.ok ())).2 = [DbCall.deleteBookRow id] ∧
    deleteTable n (deleteTable n t) = deleteTable n t := by
  refine ⟨rfl, rfl, ?_⟩
  simp [deleteTable, List.filter_filter]

/-- C6: on PUT /books/{id}, a JSON decode failure makes the handler
respond HTTP 400 with the error text and return immediately: whatever
the (never-consulted) execution outcome `r`, the call trace is empty, so
no SQL statement runs and the database is untouched. -/
theorem updateBook_decode_error_stops (id : String) (e : String) (b0 : Book) :
    ∀ r, updateBook id (.error e b0) r
      = ({ status := some 400, body := e ++ "\n" }, []) :=
  fun r => by cases r <;> rfl

/-- C7: frame property of the UPDATE statement issued by `updateBook`:
the ids of the rows are unchanged (id is immutable), a row whose id
differs from the target is in the table before iff after (unchanged), and
a matching row reappears with only title/author/isbn replaced. -/
theorem updateTable_frame (n : Int) (b : Book) (t : List Book) :
    (updateTable n b t).map Book.ID = t.map Book.ID ∧
    (∀ r, r ∈ t → r.ID ≠ n → r ∈ updateTable n b t) ∧
    (∀ r, r ∈ updateTable n b t → r.ID ≠ n → r ∈ t) ∧
    (∀ r, r ∈ t → r.ID = n →
      { r with Title := b.Title, Author := b.Author, ISBN := b.ISBN }
        ∈ updateTable n b t) := by
  refine ⟨?_, ?_, ?_, ?_⟩
  · induction t with
    | nil => rfl
    | cons r rest ih =>
      by_cases h : r.ID = n <;> simp [updateTable, h, ih]
  · intro r hr hne
    induction t with
    | nil => cases hr
    | cons s rest ih =>
      rcases List.mem_cons.1 hr with h | h
      · subst h
        simp [updateTable, hne]
      · exact List.mem_cons_of_mem _ (ih h)
  · intro r hr hne
    induction t with
    | nil => cases hr
    | cons s rest ih =>
      rcases List.mem_cons.1 hr with h | h
      · by_cases hs : s.ID = n
        · exfalso
          apply hne
          rw [h]
          simp [hs]
        · simp only [updateTable, if_neg hs] at h
          exact h ▸ List.mem_cons_self _ _
      · exact List.mem_cons_of_mem _ (ih h)
  · intro r hr he
    induction t with
    | nil => cases hr
    | cons s rest ih =>
      rcases List.mem_cons.1 hr with h | h
      · subst h
        simp [updateTable, he]
      · exact List.mem_cons_of_mem _ (ih h)

/-- C7 witness: on the concrete table [(1,t1,a1,i1), (2,t2,a2,i2)], updating
id 1 with new field values keeps both ids and leaves the row with id 2 in
the table unchanged. -/
theorem updateTable_frame_witness :
    (updateTable 1 ⟨9, "T", "A", "I"⟩
        [⟨1, "t1", "a1", "i1"⟩, ⟨2, "t2", "a2", "i2"⟩]).map Book.ID
      = ([⟨1, "t1", "a1", "i1"⟩, ⟨2, "t2", "a2", "i2"⟩] : List Book).map Book.ID ∧
    (⟨2, "t2", "a2", "i2"⟩ : Book)
      ∈ updateTable 1 ⟨9, "T", "A", "I"⟩
          [⟨1, "t1", "a1", "i1"⟩, ⟨2, "t2", "a2", "i2"⟩] := by
  have h := updateTable_frame 1 ⟨9, "T", "A", "I"⟩
    [⟨1, "t1", "a1", "i1"⟩, ⟨2, "t2", "a2", "i2"⟩]
  exact ⟨h.1, h.2.1 ⟨2, "t2", "a2", "i2"⟩ (by simp) (by decide)⟩

theorem foldl_setField_ID (fs : List BookField) (b : Book)
    (h : ∀ v, BookField.id v ∉ fs) :
    (fs.foldl Book.setField b).ID = b.ID := by
  induction fs generalizing b with
  | nil => rfl
  | cons f rest ih =>
    have hrest : ∀ v, BookField.id v ∉ rest :=
      fun v hv => h v (List.mem_cons_of_mem _ hv)
    rw [List.foldl_cons, ih _ hrest]
    cases f with
    | id v => exact absurd (List.mem_cons_self _ _) (h v)
    | title v => rfl
    | author v => rfl
    | isbn v => rfl

/-- C8: on PUT /books/{id} the id echoed in the response is the one decoded
from the request body — 0 when the body has no id member, since decoding
starts from the zero value — never the path id: the body is the decoded
book re-encoded, it is the same for every path id, while the UPDATE
statement itself is filtered by the path id. -/
theorem updateBook_echoes_decoded_id (id : String) (fs : List BookField) :
    (updateBook id (.ok (decodeBook fs)) (.ok ())).1.body
      = encodeBook (decodeBook fs) ++ "\n" ∧
    ((∀ v, BookField.id v ∉ fs) → (decodeBook fs).ID = 0) ∧
    (∀ id2, (updateBook id2 (.ok (decodeBook fs)) (.ok ())).1
      = (updateBook id (.ok (decodeBook fs)) (.ok ())).1) ∧
    (updateBook id (.ok (decodeBook fs)) (.ok ())).2
      = [DbCall.updateBookRow (decodeBook fs).Title (decodeBook fs).Author
          (decodeBook fs).ISBN id] :=
  ⟨rfl, fun h => foldl_setField_ID fs Book.zero h, fun _ => rfl, rfl⟩

/-- C8 witness: a body with only a title member decodes to a book whose id
is 0, and the response to PUT /books/7 echoes that book. -/
theorem updateBook_echoes_decoded_id_witness :
    (updateBook "7" (.ok (decodeBook [BookField.title "x"])) (.ok ())).1.body
      = encodeBook (decodeBook [BookField.title "x"]) ++ "\n" ∧
    (decodeBook [BookField.title "x"]).ID = 0 := by
  have h := updateBook_echoes_decoded_id "7" [BookField.title "x"]
  exact ⟨h.1, h.2.1 (by intro v hv; simp at hv)⟩

/-- C9: on POST /books with a malformed body whose fall-through INSERT
succeeds, the status is the first one written — the 400 of the decode
error (the later WriteHeader(201) is ignored by net/http) — and the body
is the decode error text, a newline, then the confirmation string. -/
theorem createBook_decode_error_status_and_body (e : String) (b0 : Book) :
    (createBook (.error e b0) (.ok ())).1.status = some 400 ∧
    (createBook (.error e b0) (.ok ())).1.body
      = (e ++ "\n") ++ "Book created successfully" :=
  ⟨rfl, rfl⟩

/-- C10: on GET /books, if some row scan fails after `pre` rows scanned
fine, the handler returns before anything is written, so the whole
response is the HTTP 500 with that error text — no partial array of the
already-scanned rows reaches the body. -/
theorem getBooks_scan_error_no_partial_output (pre : List Book) (e : String)
    (post : List (Except String Book)) :
    getBooks (.ok (pre.map Except.ok ++ Except.error e :: post))
      = ({ status := some 500, body := e ++ "\n" }, [DbCall.queryBooks]) := by
  simp only [getBooks, booksLoop_error]
  rfl
